import Mathlib

/-!
Verification development for the rust-nostr bindings repository.

The files shipped under `bindings/` are thin glue (C/C++ examples, Flutter
platform plugins, a React-Native JNI adapter); the relay-connection and
event-distribution core they call into is described only by the design
specification. The core components (EventStore, RelayConnection,
SubscriptionManager, RelayPool, Client) are therefore modelled here from the
words of the specification, while the Flutter Linux plugin handler and the JNI
multiply bridge are embedded directly from their source files.
-/

namespace NostrSdk

/-- Modelled from the spec: the cryptographic collaborators are external
("the cryptographic primitives themselves ... are assumed to be provided by
external, already-specified collaborators"). `hash` is the canonical content
hash of the non-id, non-sig fields of an event; `verify` checks a signature
against a public key and an event id. -/
structure Crypto where
  hash : String → Nat → Nat → List (List String) → String → String
  verify : String → String → String → Bool

/-- Modelled from the spec: "Event — immutable value: `id` (content hash,
fixed-length hex), `pubkey` (author public key), `created_at` (Unix
timestamp), `kind` (integer category), `tags` (ordered sequence of ordered
sequences of strings), `content` (string), `sig` (signature over the id)." -/
structure Event where
  id : String
  pubkey : String
  created_at : Nat
  kind : Nat
  tags : List (List String)
  content : String
  sig : String
deriving DecidableEq

/-- Modelled from the spec: the error taxonomy of section 7 ("InvalidEvent",
"NoSigner", "NotConnected", "ConnectionLost", "Timeout"). -/
inductive Err where
  | InvalidEvent
  | NoSigner
  | NotConnected
  | ConnectionLost
  | TimeoutExceeded
deriving DecidableEq

/-- Modelled from the spec: the Event invariant "`id` must equal the
canonical hash of the other fields; `sig` must verify against `pubkey` and
`id`". -/
def validB (c : Crypto) (e : Event) : Bool :=
  (e.id = c.hash e.pubkey e.created_at e.kind e.tags e.content) &&
    c.verify e.sig e.pubkey e.id

/-- Modelled from the spec: "EventStore — mapping from event id to Event",
realised as an association list keyed by id. -/
def EventStore := List (String × Event)
deriving DecidableEq

/-- Modelled from the spec: EventStore contract "`contains(id) -> bool`". -/
def EventStore.containsB (s : EventStore) (i : String) : Bool :=
  (List.lookup i s).isSome

/-- Modelled from the spec: EventStore contract "`get(id) -> Event?`". -/
def EventStore.get (s : EventStore) (i : String) : Option Event :=
  List.lookup i s

/-- Modelled from the spec: EventStore contract "`insert(event) -> bool`
returns true iff the event id was not already present (first-seen
semantics)" and "insert of a malformed event (hash/signature mismatch) is
rejected with an `InvalidEvent` error and never stored". Returns the updated
store paired with the insert outcome. -/
def EventStore.insert (c : Crypto) (s : EventStore) (e : Event) :
    EventStore × Except Err Bool :=
  if validB c e then
    if s.containsB e.id then (s, Except.ok false)
    else ((e.id, e) :: s, Except.ok true)
  else (s, Except.error Err.InvalidEvent)

/-- Modelled from the spec: a sequence of inserts into the EventStore,
threading the store and collecting the outcome of each insert. -/
def EventStore.insertAll (c : Crypto) : EventStore → List Event →
    EventStore × List (Except Err Bool)
  | s, [] => (s, [])
  | s, e :: es =>
    let r := EventStore.insert c s e
    let r2 := EventStore.insertAll c r.1 es
    (r2.1, r.2 :: r2.2)

theorem lookup_cons_self (i : String) (e : Event) (s : EventStore) :
    List.lookup i ((i, e) :: s) = some e := by
  simp [List.lookup]

theorem containsB_cons_self (i : String) (e : Event) (s : EventStore) :
    EventStore.containsB ((i, e) :: s) i = true := by
  simp [EventStore.containsB, lookup_cons_self]

theorem insert_of_contains (c : Crypto) (s : EventStore) (e : Event)
    (hv : validB c e = true) (hc : s.containsB e.id = true) :
    EventStore.insert c s e = (s, Except.ok false) := by
  simp [EventStore.insert, hv, hc]

theorem insertAll_of_contains (c : Crypto) (i : String) :
    ∀ (es : List Event) (s : EventStore),
      (∀ x ∈ es, x.id = i ∧ validB c x = true) →
      s.containsB i = true →
      EventStore.insertAll c s es = (s, es.map (fun _ => Except.ok false)) := by
  intro es
  induction es with
  | nil => intro s _ _; rfl
  | cons e es ih =>
    intro s hes hc
    have he := hes e (List.mem_cons_self e es)
    have hins : EventStore.insert c s e = (s, Except.ok false) := by
      have hc' : s.containsB e.id = true := by rw [he.1]; exact hc
      exact insert_of_contains c s e he.2 hc'
    have hrest := ih s (fun x hx => hes x (List.mem_cons_of_mem e hx)) hc
    simp [EventStore.insertAll, hins, hrest]

/-- C1: for every sequence of inserts of well-formed events sharing one id,
`EventStore.insert` returns true on exactly the first insert when the id is
not already present (and never when it is); every subsequent insert returns
false and leaves the stored value for that id unchanged. -/
theorem eventstore_insert_first_seen (c : Crypto) (i : String) (e : Event)
    (es : List Event) (hv : validB c e = true) (hi : e.id = i)
    (hes : ∀ x ∈ es, x.id = i ∧ validB c x = true) :
    ∀ s : EventStore,
      (s.containsB i = false →
        EventStore.insertAll c s (e :: es) =
          ((i, e) :: s, Except.ok true :: es.map (fun _ => Except.ok false))) ∧
      (s.containsB i = true →
        EventStore.insertAll c s (e :: es) =
          (s, (e :: es).map (fun _ => Except.ok false))) := by
  intro s
  constructor
  · intro hfresh
    have hins : EventStore.insert c s e = ((i, e) :: s, Except.ok true) := by
      have hc : s.containsB e.id = false := by rw [hi]; exact hfresh
      simp [EventStore.insert, hv, hc, hi, hfresh]
    have hrest := insertAll_of_contains c i es ((i, e) :: s) hes
      (containsB_cons_self i e s)
    simp [EventStore.insertAll, hins, hrest]
  · intro hc
    exact insertAll_of_contains c i (e :: es) s
      (fun x hx => by
        rcases List.mem_cons.mp hx with h | h
        · subst h; exact ⟨hi, hv⟩
        · exact hes x h) hc

/-- Modelled from the spec: a toy instantiation of the external crypto
collaborator, used only to evaluate the theorems at concrete inputs. -/
def cryptoT : Crypto where
  hash := fun _ _ _ _ _ => "h"
  verify := fun sig _ _ => sig = "s"

/-- Modelled from the spec: a concrete well-formed event under `cryptoT`. -/
def eventOk : Event :=
  { id := "h", pubkey := "p", created_at := 1, kind := 1, tags := [],
    content := "c", sig := "s" }

/-- Modelled from the spec: a concrete malformed event under `cryptoT` (its
signature does not verify). -/
def eventBad : Event :=
  { id := "h", pubkey := "p", created_at := 1, kind := 1, tags := [],
    content := "c", sig := "x" }

/-- Witness for C1: inserting `eventOk` twice into the empty store returns
`true` then `false`, and the store keeps the first stored value. -/
theorem eventstore_insert_first_seen_w :
    EventStore.insertAll cryptoT [] [eventOk, eventOk] =
      ([("h", eventOk)], [Except.ok true, Except.ok false]) :=
  (eventstore_insert_first_seen cryptoT "h" eventOk [eventOk] (by decide) rfl
    (by intro x hx; simp at hx; subst hx; exact ⟨rfl, by decide⟩) []).1 rfl

/-- C3: inserting a malformed event (hash or signature mismatch) is rejected
with `InvalidEvent`, the store is unchanged, and `contains` on its id stays
false when it was false before. -/
theorem eventstore_insert_rejects_invalid (c : Crypto) (s : EventStore)
    (e : Event) (hv : validB c e = false) :
    EventStore.insert c s e = (s, Except.error Err.InvalidEvent) ∧
      (EventStore.insert c s e).1.containsB e.id = s.containsB e.id ∧
      (s.containsB e.id = false →
        (EventStore.insert c s e).1.containsB e.id = false) := by
  have h : EventStore.insert c s e = (s, Except.error Err.InvalidEvent) := by
    simp [EventStore.insert, hv]
  exact ⟨h, by rw [h], fun hf => by rw [h]; exact hf⟩

/-- Witness for C3: inserting the malformed `eventBad` into the empty store
errors with `InvalidEvent` and its id is still absent. -/
theorem eventstore_insert_rejects_invalid_w :
    EventStore.insert cryptoT [] eventBad =
        ([], Except.error Err.InvalidEvent) ∧
      (EventStore.insert cryptoT [] eventBad).1.containsB "h" = false := by
  have h := eventstore_insert_rejects_invalid cryptoT [] eventBad (by decide)
  exact ⟨h.1, h.2.2 (by decide)⟩

/-- Modelled from the spec: SubscriptionManager state, "single source of
truth for what this client is listening for": the shared EventStore plus the
registry mapping each `subscription_id` to its local subscribers (opaque
handles). -/
structure SMState where
  store : EventStore
  subs : List (String × List Nat)
deriving DecidableEq

/-- Modelled from the spec: "`deliver(event, subscription_id)`: called by
RelayConnection receive loops; forwards to EventStore for deduplication; if
first-seen, dispatches to the subscriber callback/stream associated with
`subscription_id` exactly once". Returns the new state and the list of
subscriber handles dispatched to. -/
def SMState.deliver (c : Crypto) (st : SMState) (e : Event) (sid : String) :
    SMState × List Nat :=
  match EventStore.insert c st.store e with
  | (store2, Except.ok true) =>
    ({ store := store2, subs := st.subs }, (List.lookup sid st.subs).getD [])
  | (store2, _) => ({ store := store2, subs := st.subs }, [])

/-- Modelled from the spec: a sequence of inbound arrivals (event paired
with its subscription id, one per relay echo), each handed to `deliver`;
collects every dispatch made. -/
def SMState.deliverMany (c : Crypto) : SMState → List (Event × String) →
    SMState × List Nat
  | st, [] => (st, [])
  | st, a :: rest =>
    let r := SMState.deliver c st a.1 a.2
    let r2 := SMState.deliverMany c r.1 rest
    (r2.1, r.2 ++ r2.2)

theorem deliver_of_contains (c : Crypto) (st : SMState) (e : Event)
    (sid : String) (hv : validB c e = true)
    (hc : st.store.containsB e.id = true) :
    SMState.deliver c st e sid = (st, []) := by
  have h := insert_of_contains c st.store e hv hc
  simp [SMState.deliver, h]

theorem deliverMany_of_contains (c : Crypto) (e : Event) (sid : String)
    (hv : validB c e = true) :
    ∀ (n : Nat) (st : SMState), st.store.containsB e.id = true →
      SMState.deliverMany c st (List.replicate n (e, sid)) = (st, []) := by
  intro n
  induction n with
  | zero => intro st _; rfl
  | succ n ih =>
    intro st hc
    have h1 := deliver_of_contains c st e sid hv hc
    have h2 := ih st hc
    simp [List.replicate, SMState.deliverMany, h1, h2]

/-- C2: an event echoed back by any number N+1 of relay connections is
dispatched to each local subscriber of the matching subscription exactly
once: the dispatch list over all echoes equals the subscriber list when the
event is first-seen, and is empty when the event is already in the
EventStore. -/
theorem subscription_deliver_exactly_once (c : Crypto) (e : Event)
    (sid : String) (n : Nat) (hv : validB c e = true) :
    (∀ (st : SMState) (subsc : List Nat),
      List.lookup sid st.subs = some subsc →
      st.store.containsB e.id = false →
      (SMState.deliverMany c st (List.replicate (n + 1) (e, sid))).2 = subsc) ∧
    (∀ st : SMState, st.store.containsB e.id = true →
      (SMState.deliverMany c st (List.replicate n (e, sid))).2 = []) := by
  constructor
  · intro st subsc hs hfresh
    have hins : EventStore.insert c st.store e =
        ((e.id, e) :: st.store, Except.ok true) := by
      simp [EventStore.insert, hv, hfresh]
    have h1 : SMState.deliver c st e sid =
        ({ store := (e.id, e) :: st.store, subs := st.subs }, subsc) := by
      simp [SMState.deliver, hins, hs]
    have h2 := deliverMany_of_contains c e sid hv n
      { store := (e.id, e) :: st.store, subs := st.subs }
      (containsB_cons_self e.id e st.store)
    simp [List.replicate, SMState.deliverMany, h1, h2]
  · intro st hc
    rw [deliverMany_of_contains c e sid hv n st hc]

/-- Witness for C2: a single subscriber 7 on subscription "s1" receives
`eventOk` exactly once across three echoes of it. -/
theorem subscription_deliver_exactly_once_w :
    (SMState.deliverMany cryptoT { store := [], subs := [("s1", [7])] }
      (List.replicate 3 (eventOk, "s1"))).2 = [7] :=
  (subscription_deliver_exactly_once cryptoT eventOk "s1" 2 (by decide)).1
    { store := [], subs := [("s1", [7])] } [7] (by decide) (by decide)

/-- Modelled from the spec: "`unsubscribe(subscription_id)`: removes
bookkeeping ...; idempotent — unsubscribing an unknown id is a no-op, not an
error". Removes every registry entry with that subscription id; returns the
new state (no error value, matching "no error"). -/
def SMState.unsubscribe (st : SMState) (sid : String) : SMState :=
  { st with subs := st.subs.filter (fun p => p.1 != sid) }

theorem filter_ne_of_lookup_none (sid : String) :
    ∀ subs : List (String × List Nat), List.lookup sid subs = none →
      subs.filter (fun p => p.1 != sid) = subs := by
  intro subs
  induction subs with
  | nil => intro _; rfl
  | cons p rest ih =>
    intro h
    rw [List.lookup] at h
    by_cases hp : sid == p.1
    · simp [hp] at h
    · have hne : p.1 != sid := by
        simp only [beq_iff_eq] at hp
        simp [bne_iff_ne]
        exact fun hh => hp hh.symm
      have hrest : List.lookup sid rest = none := by
        simpa [hp] using h
      simp [List.filter, hne, ih hrest]

/-- C7: `unsubscribe` on an id with no registered subscription is a no-op
(state unchanged, no error), and `unsubscribe` is idempotent: applying it
twice with the same id equals applying it once. -/
theorem unsubscribe_unknown_noop_idempotent :
    (∀ (st : SMState) (sid : String), List.lookup sid st.subs = none →
      st.unsubscribe sid = st) ∧
    (∀ (st : SMState) (sid : String),
      (st.unsubscribe sid).unsubscribe sid = st.unsubscribe sid) := by
  constructor
  · intro st sid h
    have hf := filter_ne_of_lookup_none sid st.subs h
    show ({ st with subs := st.subs.filter (fun p => p.1 != sid) } : SMState) = st
    rw [hf]
  · intro st sid
    show ({ store := st.store,
            subs := (st.subs.filter (fun p => p.1 != sid)).filter
              (fun p => p.1 != sid) } : SMState) =
      { store := st.store, subs := st.subs.filter (fun p => p.1 != sid) }
    rw [List.filter_filter]
    simp

/-- Witness for C7: unsubscribing the unknown id "zz" from a state holding
only subscription "s1" leaves the state unchanged, twice as well as once. -/
theorem unsubscribe_unknown_noop_idempotent_w :
    SMState.unsubscribe { store := [], subs := [("s1", [7])] } "zz" =
        { store := [], subs := [("s1", [7])] } ∧
      (SMState.unsubscribe { store := [], subs := [("s1", [7])] }
          "zz").unsubscribe "zz" =
        SMState.unsubscribe { store := [], subs := [("s1", [7])] } "zz" :=
  ⟨unsubscribe_unknown_noop_idempotent.1
      { store := [], subs := [("s1", [7])] } "zz" (by decide),
    unsubscribe_unknown_noop_idempotent.2
      { store := [], subs := [("s1", [7])] } "zz"⟩

/-- Modelled from the spec: "RelayConnection state — one per relay URL:
{Disconnected, Connecting, Connected, Reconnecting, Failed}". -/
inductive RCState where
  | Disconnected
  | Connecting
  | Connected
  | Reconnecting
  | Failed
deriving DecidableEq

/-- Modelled from the spec: the retry configuration — "exponential backoff
(base delay, capped maximum ...) up to an unbounded or caller-configured
retry count". -/
structure RCConfig where
  baseDelay : Nat
  cap : Nat
  budget : Nat
deriving DecidableEq

/-- Modelled from the spec: one RelayConnection — its lifecycle state, the
number of retries consumed, the next backoff delay, and the queue of
messages enqueued by `send`. -/
structure RC where
  st : RCState
  retries : Nat
  delay : Nat
  outbox : List String
deriving DecidableEq

/-- Modelled from the spec: the observable actions driving the
RelayConnection state machine — connect, handshake success, transport
error, backoff expiry, disconnect. -/
inductive RCAction where
  | connect
  | handshakeOk
  | transportError
  | backoffExpire
  | disconnect
deriving DecidableEq

/-- Modelled from the spec: the RelayConnection state machine —
"Disconnected →(connect)→ Connecting →(handshake ok)→ Connected
→(transport error)→ Reconnecting →(backoff expires, retry connect)→
Connecting; Reconnecting →(retry budget exhausted)→ Failed; Connected
→(disconnect)→ Disconnected", with transport failure mid-handshake
("a RelayConnection whose transport fails mid-handshake reaches
Reconnecting") also sent to Reconnecting, and the backoff delay doubled up
to the cap on each retry. Unmatched action/state pairs leave the connection
unchanged. -/
def RC.step (cfg : RCConfig) (c : RC) (a : RCAction) : RC :=
  match a, c.st with
  | RCAction.connect, RCState.Disconnected => { c with st := RCState.Connecting }
  | RCAction.handshakeOk, RCState.Connecting => { c with st := RCState.Connected }
  | RCAction.transportError, RCState.Connecting =>
    { c with st := RCState.Reconnecting }
  | RCAction.transportError, RCState.Connected =>
    { c with st := RCState.Reconnecting }
  | RCAction.backoffExpire, RCState.Reconnecting =>
    if c.retries < cfg.budget then
      { c with st := RCState.Connecting, retries := c.retries + 1,
               delay := min (2 * c.delay) cfg.cap }
    else { c with st := RCState.Failed }
  | RCAction.disconnect, RCState.Connected => { c with st := RCState.Disconnected }
  | _, _ => c

/-- Modelled from the spec: a freshly created RelayConnection — Disconnected,
no retries consumed, backoff at the base delay, empty queue. -/
def RC.initial (cfg : RCConfig) : RC :=
  { st := RCState.Disconnected, retries := 0, delay := cfg.baseDelay,
    outbox := [] }

/-- Modelled from the spec: running the state machine from a fresh
connection over a sequence of actions. -/
def RC.run (cfg : RCConfig) (acts : List RCAction) : RC :=
  acts.foldl (RC.step cfg) (RC.initial cfg)

/-- The transition relation asserted by the claim: Disconnected→Connecting,
Connecting→Connected, Connected→Reconnecting, Reconnecting→Connecting,
Reconnecting→Failed. -/
def claimedAllowed : RCState → RCState → Bool
  | RCState.Disconnected, RCState.Connecting => true
  | RCState.Connecting, RCState.Connected => true
  | RCState.Connected, RCState.Reconnecting => true
  | RCState.Reconnecting, RCState.Connecting => true
  | RCState.Reconnecting, RCState.Failed => true
  | _, _ => false

/-- The full transition relation of the spec: the claimed one extended with
Connecting→Reconnecting (mid-handshake transport error) and
Connected→Disconnected (disconnect). -/
def specAllowed : RCState → RCState → Bool
  | RCState.Disconnected, RCState.Connecting => true
  | RCState.Connecting, RCState.Connected => true
  | RCState.Connecting, RCState.Reconnecting => true
  | RCState.Connected, RCState.Reconnecting => true
  | RCState.Reconnecting, RCState.Connecting => true
  | RCState.Reconnecting, RCState.Failed => true
  | RCState.Connected, RCState.Disconnected => true
  | _, _ => false

theorem failed_invariant_step (cfg : RCConfig) (c : RC) (a : RCAction)
    (h : c.st = RCState.Failed → cfg.budget ≤ c.retries) :
    (RC.step cfg c a).st = RCState.Failed →
      cfg.budget ≤ (RC.step cfg c a).retries := by
  cases a <;> cases hst : c.st <;>
    simp [RC.step, hst] <;> try exact h hst
  intro hf
  by_cases hb : c.retries < cfg.budget
  · simp [hb] at hf
  · simpa [hb] using Nat.le_of_not_lt hb

theorem failed_invariant_fold (cfg : RCConfig) :
    ∀ (acts : List RCAction) (c : RC),
      (c.st = RCState.Failed → cfg.budget ≤ c.retries) →
      ((acts.foldl (RC.step cfg) c).st = RCState.Failed →
        cfg.budget ≤ (acts.foldl (RC.step cfg) c).retries) := by
  intro acts
  induction acts with
  | nil => intro c h; exact h
  | cons a rest ih =>
    intro c h
    exact ih (RC.step cfg c a) (failed_invariant_step cfg c a h)

/-- Counterexample to C4 as stated: the state machine modelled from the
spec also takes the change-of-state transitions Connected→Disconnected (on
disconnect) and Connecting→Reconnecting (on mid-handshake transport error),
neither of which is in the transition list of the claim. -/
theorem relay_sm_claimed_cx :
    (RC.step { baseDelay := 1, cap := 4, budget := 1 }
        { st := RCState.Connected, retries := 0, delay := 1, outbox := [] }
        RCAction.disconnect).st = RCState.Disconnected ∧
      claimedAllowed RCState.Connected RCState.Disconnected = false ∧
      RCState.Disconnected ≠ RCState.Connected ∧
      (RC.step { baseDelay := 1, cap := 4, budget := 1 }
        { st := RCState.Connecting, retries := 0, delay := 1, outbox := [] }
        RCAction.transportError).st = RCState.Reconnecting ∧
      claimedAllowed RCState.Connecting RCState.Reconnecting = false ∧
      RCState.Reconnecting ≠ RCState.Connecting := by
  refine ⟨rfl, rfl, by decide, rfl, rfl, by decide⟩

/-- C4 (amended): every step either leaves the state unchanged or follows a
transition of the machine of the spec (the claimed list plus
Connecting→Reconnecting on mid-handshake transport error and
Connected→Disconnected on disconnect); each retry strictly increases the
backoff delay while it is below the configured cap (and never exceeds the
cap); and a run from a fresh connection reaches Failed only once the retry
budget is exhausted, never before. -/
theorem relay_sm_transitions_backoff_budget (cfg : RCConfig) :
    (∀ (c : RC) (a : RCAction),
      (RC.step cfg c a).st = c.st ∨
        specAllowed c.st (RC.step cfg c a).st = true) ∧
    (∀ c : RC, c.st = RCState.Reconnecting → c.retries < cfg.budget →
      1 ≤ c.delay → c.delay < cfg.cap →
      c.delay < (RC.step cfg c RCAction.backoffExpire).delay ∧
        (RC.step cfg c RCAction.backoffExpire).delay ≤ cfg.cap) ∧
    (∀ acts : List RCAction, (RC.run cfg acts).st = RCState.Failed →
      cfg.budget ≤ (RC.run cfg acts).retries) := by
  refine ⟨?_, ?_, ?_⟩
  · intro c a
    cases a <;> cases hst : c.st <;>
      simp [RC.step, hst, specAllowed]
    by_cases hb : c.retries < cfg.budget
    · simp [hb, specAllowed]
    · simp [hb, specAllowed]
  · intro c hst hb hd hcap
    have hstep : (RC.step cfg c RCAction.backoffExpire).delay =
        min (2 * c.delay) cfg.cap := by
      simp [RC.step, hst, hb]
    constructor
    · rw [hstep]
      have h2 : c.delay < 2 * c.delay := by omega
      exact lt_min h2 hcap
    · rw [hstep]
      exact min_le_right _ _
  · intro acts
    exact failed_invariant_fold cfg acts (RC.initial cfg) (by intro h; cases h)

/-- Witness for C4 (amended), with base delay 1, cap 4, budget 1: a
transport-error step from Connected is a spec transition; a retry from
delay 1 moves to delay 2 ≤ 4; and the run connect, handshake, error, retry,
error, retry ends Failed with the budget of 1 consumed. -/
theorem relay_sm_transitions_backoff_budget_w :
    ((RC.step { baseDelay := 1, cap := 4, budget := 1 }
        { st := RCState.Connected, retries := 0, delay := 1, outbox := [] }
        RCAction.transportError).st = RCState.Connected ∨
      specAllowed RCState.Connected
        (RC.step { baseDelay := 1, cap := 4, budget := 1 }
          { st := RCState.Connected, retries := 0, delay := 1, outbox := [] }
          RCAction.transportError).st = true) ∧
    (1 < (RC.step { baseDelay := 1, cap := 4, budget := 1 }
        { st := RCState.Reconnecting, retries := 0, delay := 1, outbox := [] }
        RCAction.backoffExpire).delay ∧
      (RC.step { baseDelay := 1, cap := 4, budget := 1 }
        { st := RCState.Reconnecting, retries := 0, delay := 1, outbox := [] }
        RCAction.backoffExpire).delay ≤ 4) ∧
    1 ≤ (RC.run { baseDelay := 1, cap := 4, budget := 1 }
      [RCAction.connect, RCAction.handshakeOk, RCAction.transportError,
        RCAction.backoffExpire, RCAction.transportError,
        RCAction.backoffExpire]).retries := by
  have h := relay_sm_transitions_backoff_budget
    { baseDelay := 1, cap := 4, budget := 1 }
  refine ⟨h.1 (RC.mk RCState.Connected 0 1 []) RCAction.transportError,
    ?_, ?_⟩
  · exact h.2.1 (RC.mk RCState.Reconnecting 0 1 []) rfl (by decide)
      (by decide) (by decide)
  · exact h.2.2 [RCAction.connect, RCAction.handshakeOk,
      RCAction.transportError, RCAction.backoffExpire,
      RCAction.transportError, RCAction.backoffExpire] (by decide)

/-- Modelled from the spec: "Signer collaborator: capability
`sign(event_preimage) -> signature`, `public_key() -> pubkey`". -/
structure Signer where
  public_key : String
  sign : String → String

/-- Modelled from the spec: an event not yet signed — the Event fields
minus `id` and `sig`, which signing computes. -/
structure UnsignedEvent where
  pubkey : String
  created_at : Nat
  kind : Nat
  tags : List (List String)
  content : String
deriving DecidableEq

/-- Modelled from the spec: the argument of
"`send_event(unsigned_or_preconstructed_event)`". -/
inductive SendInput where
  | unsigned (u : UnsignedEvent)
  | preconstructed (e : Event)

/-- Modelled from the spec: "Client — the façade: ... ties signer (optional
— a client may be read-only / without signer) ... together". -/
structure Client where
  signer : Option Signer

/-- Modelled from the spec: "`send_event(unsigned_or_preconstructed_event)`:
if a signer is configured and the event is unsigned, computes id and
signature first; fails with `NoSigner` if signing is required but absent;
otherwise validates the self-consistency of an already-signed event before
publishing". A returned `Except.ok e` is the event handed on to the
RelayPool for publishing. -/
def Client.send_event (c : Crypto) (cl : Client) : SendInput → Except Err Event
  | SendInput.unsigned u =>
    match cl.signer with
    | none => Except.error Err.NoSigner
    | some sg =>
      let i := c.hash u.pubkey u.created_at u.kind u.tags u.content
      Except.ok
        { id := i, pubkey := u.pubkey, created_at := u.created_at,
          kind := u.kind, tags := u.tags, content := u.content,
          sig := sg.sign i }
  | SendInput.preconstructed e =>
    if validB c e then Except.ok e else Except.error Err.InvalidEvent

/-- C5: a client without a signer publishes an already fully-formed,
validly-signed event (the self-consistency check passes and the event is
handed on), while an unsigned event fails with `NoSigner`; both cases
return a value (no silent drop, no crash). -/
theorem client_send_event_no_signer (c : Crypto) (e : Event)
    (u : UnsignedEvent) (hv : validB c e = true) :
    Client.send_event c { signer := none } (SendInput.preconstructed e) =
        Except.ok e ∧
      Client.send_event c { signer := none } (SendInput.unsigned u) =
        Except.error Err.NoSigner := by
  constructor
  · simp [Client.send_event, hv]
  · rfl

/-- Witness for C5: under `cryptoT`, the signerless client publishes the
well-formed `eventOk` and rejects an unsigned event with `NoSigner`. -/
theorem client_send_event_no_signer_w :
    Client.send_event cryptoT { signer := none }
        (SendInput.preconstructed eventOk) = Except.ok eventOk ∧
      Client.send_event cryptoT { signer := none }
        (SendInput.unsigned
          { pubkey := "p", created_at := 1, kind := 1, tags := [],
            content := "c" }) = Except.error Err.NoSigner :=
  client_send_event_no_signer cryptoT eventOk
    { pubkey := "p", created_at := 1, kind := 1, tags := [], content := "c" }
    (by decide)

/-- Modelled from the spec: the per-relay outcome of a publish — "{Accepted,
Rejected(reason), Timeout, NotConnected}" — plus Cancelled, which the
concurrency section assigns to in-flight slots of a removed relay. -/
inductive POutcome where
  | Accepted
  | Rejected (reason : String)
  | Timeout
  | NotConnected
  | Cancelled
deriving DecidableEq

/-- Modelled from the spec: "`send(message)`: enqueues a protocol message
... for transmission; fails with `NotConnected` if state is not Connected;
messages are not silently dropped". -/
def RC.send (conn : RC) (m : String) : Except Err RC :=
  if conn.st = RCState.Connected then
    Except.ok { conn with outbox := conn.outbox ++ [m] }
  else Except.error Err.NotConnected

/-- Modelled from the spec: "RelayPool membership — mapping from relay URL
to RelayConnection (unique keys)". -/
abbrev RelayPool := List (String × RC)

theorem lookup_append_single (url : String) (v : RC) :
    ∀ p : RelayPool, List.lookup url p = none →
      List.lookup url (p ++ [(url, v)]) = some v := by
  intro p
  induction p with
  | nil => intro _; simp [List.lookup]
  | cons q rest ih =>
    intro h
    rw [List.lookup] at h
    by_cases hq : url == q.1
    · simp [hq] at h
    · have h2 : List.lookup url rest = none := by simpa [hq] using h
      simp only [List.cons_append, List.lookup, hq]
      exact ih h2

/-- Modelled from the spec: "`add_relay(url)`: creates a new RelayConnection
in Disconnected state, added to the mapping; does not auto-connect". An
already-present URL keeps its existing connection (unique keys). -/
def RelayPool.add_relay (cfg : RCConfig) (p : RelayPool) (url : String) :
    RelayPool :=
  if (List.lookup url p).isSome then p else p ++ [(url, RC.initial cfg)]

/-- Modelled from the spec: "`publish(event) -> PublishReport`: sends the
event to every Connected RelayConnection; ... returns/streams a per-relay
outcome". `ack` is the asynchronous outcome later collected from each
Connected relay; the slot of every non-Connected relay is `NotConnected`. -/
def RelayPool.publish (p : RelayPool) (ack : String → POutcome) (_e : Event) :
    List (String × POutcome) :=
  p.map (fun q => (q.1, if q.2.st = RCState.Connected then ack q.1
    else POutcome.NotConnected))

/-- C6: sending on a RelayConnection whose state is not Connected returns
`NotConnected` (a value, not a hang or silent drop); a relay freshly added
by `add_relay` starts Disconnected and is not auto-connected; and a publish
records the `NotConnected` outcome in the report slot of every pool member
that is not Connected. -/
theorem pool_not_connected_outcomes (cfg : RCConfig) :
    (∀ (conn : RC) (m : String), conn.st ≠ RCState.Connected →
      RC.send conn m = Except.error Err.NotConnected) ∧
    (∀ (p : RelayPool) (url : String), List.lookup url p = none →
      List.lookup url (RelayPool.add_relay cfg p url) =
          some (RC.initial cfg) ∧
        (RC.initial cfg).st = RCState.Disconnected) ∧
    (∀ (p : RelayPool) (ack : String → POutcome) (e : Event) (url : String)
      (conn : RC), (url, conn) ∈ p → conn.st ≠ RCState.Connected →
      (url, POutcome.NotConnected) ∈ RelayPool.publish p ack e) := by
  refine ⟨?_, ?_, ?_⟩
  · intro conn m h
    simp [RC.send, h]
  · intro p url h
    constructor
    · have hn : (List.lookup url p).isSome = false := by simp [h]
      unfold RelayPool.add_relay
      rw [hn]
      simpa using lookup_append_single url (RC.initial cfg) p h
    · rfl
  · intro p ack e url conn hmem hst
    have : (url, if conn.st = RCState.Connected then ack url
        else POutcome.NotConnected) ∈ RelayPool.publish p ack e := by
      unfold RelayPool.publish
      exact List.mem_map.mpr ⟨(url, conn), hmem, rfl⟩
    simpa [hst] using this

/-- Witness for C6: a Connecting relay refuses a send with `NotConnected`;
adding "wss://relay.damus.io" to the empty pool yields a Disconnected
connection; and a publish against a pool holding that Connecting relay
reports `NotConnected` for it. -/
theorem pool_not_connected_outcomes_w :
    RC.send (RC.mk RCState.Connecting 0 1 []) "EVENT" =
        Except.error Err.NotConnected ∧
      List.lookup "wss://relay.damus.io"
        (RelayPool.add_relay (RCConfig.mk 1 4 1) [] "wss://relay.damus.io") =
          some (RC.initial (RCConfig.mk 1 4 1)) ∧
      ("wss://relay.damus.io", POutcome.NotConnected) ∈
        RelayPool.publish [("wss://relay.damus.io",
          RC.mk RCState.Connecting 0 1 [])] (fun _ => POutcome.Accepted)
          eventOk := by
  have h := pool_not_connected_outcomes (RCConfig.mk 1 4 1)
  refine ⟨h.1 (RC.mk RCState.Connecting 0 1 []) "EVENT" (by decide), ?_, ?_⟩
  · exact (h.2.1 [] "wss://relay.damus.io" rfl).1
  · exact h.2.2 [("wss://relay.damus.io", RC.mk RCState.Connecting 0 1 [])]
      (fun _ => POutcome.Accepted) eventOk "wss://relay.damus.io"
      (RC.mk RCState.Connecting 0 1 []) (List.mem_singleton.mpr rfl)
      (by decide)

/-- Modelled from the spec: the state of an in-flight publish fan-out — for
each relay URL, `none` while the slot of that relay is still pending, `some o`
once it has completed with outcome `o`. -/
def Slots := String → Option POutcome

/-- Modelled from the spec: the events that can touch an in-flight fan-out —
an acknowledgement arriving from a relay, or the relay being removed from the pool
("in-flight operations referencing a removed relay complete with
`Timeout`/`Cancelled`"). -/
inductive FanEv where
  | ack (url : String) (o : POutcome)
  | removeRelay (url : String)

/-- Modelled from the spec: applying one fan-out event. A slot completes at
most once (the first completion wins); removing a relay completes its
still-pending slot with `Cancelled` and leaves a completed slot alone. -/
def Slots.applyEv (r : Slots) : FanEv → Slots
  | FanEv.ack u o => fun v => if v = u then some ((r u).getD o) else r v
  | FanEv.removeRelay u =>
    fun v => if v = u then some ((r u).getD POutcome.Cancelled) else r v

/-- Modelled from the spec: running a fan-out over a sequence of interleaved
acknowledgements and removals. -/
def Slots.runFan (r : Slots) (tr : List FanEv) : Slots :=
  tr.foldl Slots.applyEv r

/-- Modelled from the spec: closing the await — every slot still pending
when the configured wait elapses completes with `Timeout` ("a
caller-supplied timeout elapses"; "default values must be finite"). -/
def Slots.finalizeReport (r : Slots) : String → POutcome :=
  fun u => (r u).getD POutcome.Timeout

theorem applyEv_of_done (r : Slots) (u : String) (o : POutcome)
    (h : r u = some o) : ∀ ev : FanEv, Slots.applyEv r ev u = some o := by
  intro ev
  cases ev with
  | ack u2 o2 =>
    by_cases hu : u = u2
    · subst hu; simp [Slots.applyEv, h]
    · simp [Slots.applyEv, hu, h]
  | removeRelay u2 =>
    by_cases hu : u = u2
    · subst hu; simp [Slots.applyEv, h]
    · simp [Slots.applyEv, hu, h]

theorem runFan_of_done (u : String) (o : POutcome) :
    ∀ (tr : List FanEv) (r : Slots), r u = some o →
      Slots.runFan r tr u = some o := by
  intro tr
  induction tr with
  | nil => intro r h; exact h
  | cons ev rest ih =>
    intro r h
    exact ih (Slots.applyEv r ev) (applyEv_of_done r u o h ev)

theorem applyEv_pointwise (u : String) (r1 r2 : Slots) (h : r1 u = r2 u) :
    ∀ ev : FanEv, Slots.applyEv r1 ev u = Slots.applyEv r2 ev u := by
  intro ev
  cases ev with
  | ack u2 o2 =>
    by_cases hu : u = u2
    · subst hu; simp [Slots.applyEv, h]
    · simp [Slots.applyEv, hu, h]
  | removeRelay u2 =>
    by_cases hu : u = u2
    · subst hu; simp [Slots.applyEv, h]
    · simp [Slots.applyEv, hu, h]

theorem runFan_pointwise (u : String) :
    ∀ (tr : List FanEv) (r1 r2 : Slots), r1 u = r2 u →
      Slots.runFan r1 tr u = Slots.runFan r2 tr u := by
  intro tr
  induction tr with
  | nil => intro r1 r2 h; exact h
  | cons ev rest ih =>
    intro r1 r2 h
    exact ih (Slots.applyEv r1 ev) (Slots.applyEv r2 ev)
      (applyEv_pointwise u r1 r2 h ev)

/-- C8: removing a relay while the publish fan-out is still in flight
against it (its slot pending at the moment of removal) completes that
slot of that relay with `Timeout` or `Cancelled` — never an unhandled fault or an
indefinite hang, since every slot of the final report carries an outcome —
and the final outcome of every other relay equals what it would have been had the
removal not happened. -/
theorem publish_remove_relay_cancelled (u : String) (pre post : List FanEv)
    (r : Slots) (hpend : Slots.runFan r pre u = none) :
    (Slots.finalizeReport
        (Slots.runFan r (pre ++ FanEv.removeRelay u :: post)) u =
          POutcome.Timeout ∨
      Slots.finalizeReport
        (Slots.runFan r (pre ++ FanEv.removeRelay u :: post)) u =
          POutcome.Cancelled) ∧
    (∀ v : String, v ≠ u →
      Slots.finalizeReport
          (Slots.runFan r (pre ++ FanEv.removeRelay u :: post)) v =
        Slots.finalizeReport (Slots.runFan r (pre ++ post)) v) := by
  have hsplit : Slots.runFan r (pre ++ FanEv.removeRelay u :: post) =
      Slots.runFan (Slots.applyEv (Slots.runFan r pre)
        (FanEv.removeRelay u)) post := by
    unfold Slots.runFan
    rw [List.foldl_append]
    rfl
  have hsplit2 : Slots.runFan r (pre ++ post) =
      Slots.runFan (Slots.runFan r pre) post := by
    unfold Slots.runFan
    rw [List.foldl_append]
  constructor
  · right
    have hrm : Slots.applyEv (Slots.runFan r pre) (FanEv.removeRelay u) u =
        some POutcome.Cancelled := by
      simp [Slots.applyEv, hpend]
    rw [hsplit]
    have hdone := runFan_of_done u POutcome.Cancelled post
      (Slots.applyEv (Slots.runFan r pre) (FanEv.removeRelay u)) hrm
    simp [Slots.finalizeReport, hdone]
  · intro v hv
    rw [hsplit, hsplit2]
    have hpt : Slots.applyEv (Slots.runFan r pre) (FanEv.removeRelay u) v =
        Slots.runFan r pre v := by
      simp [Slots.applyEv, hv]
    have := runFan_pointwise v post
      (Slots.applyEv (Slots.runFan r pre) (FanEv.removeRelay u))
      (Slots.runFan r pre) hpt
    simp [Slots.finalizeReport, this]

/-- Witness for C8: with relay "b" still pending after "a" has been
accepted, removing "b" mid-flight completes its slot with `Cancelled`, and
the outcome of relay "a" is the same with or without the removal. -/
theorem publish_remove_relay_cancelled_w :
    (Slots.finalizeReport
        (Slots.runFan (fun _ => none)
          ([FanEv.ack "a" POutcome.Accepted] ++ FanEv.removeRelay "b" ::
            [FanEv.ack "b" POutcome.Accepted])) "b" = POutcome.Timeout ∨
      Slots.finalizeReport
        (Slots.runFan (fun _ => none)
          ([FanEv.ack "a" POutcome.Accepted] ++ FanEv.removeRelay "b" ::
            [FanEv.ack "b" POutcome.Accepted])) "b" = POutcome.Cancelled) ∧
    Slots.finalizeReport
        (Slots.runFan (fun _ => none)
          ([FanEv.ack "a" POutcome.Accepted] ++ FanEv.removeRelay "b" ::
            [FanEv.ack "b" POutcome.Accepted])) "a" =
      Slots.finalizeReport
        (Slots.runFan (fun _ => none)
          ([FanEv.ack "a" POutcome.Accepted] ++
            [FanEv.ack "b" POutcome.Accepted])) "a" := by
  have h := publish_remove_relay_cancelled "b"
    [FanEv.ack "a" POutcome.Accepted] [FanEv.ack "b" POutcome.Accepted]
    (fun _ => none) (by decide)
  exact ⟨h.1, h.2 "a" (by decide)⟩

end NostrSdk

namespace FlutterLinux

/-- A Flutter method-channel response, as built by the Linux plugin
(`fl_method_success_response_new` carrying a string value, or
`fl_method_not_implemented_response_new`). -/
inductive FlMethodResponse where
  | success (value : String)
  | notImplemented
deriving DecidableEq

/-- Embedded from `bindings/nostr-sdk-flutter/linux/nostr_sdk_plugin.cc`,
`get_platform_version`: formats "Linux %s" with the uname version (the
uname result is an input of the model) and wraps it in a success
response. -/
def get_platform_version (unameVersion : String) : FlMethodResponse :=
  FlMethodResponse.success ("Linux " ++ unameVersion)

/-- Embedded from `bindings/nostr-sdk-flutter/linux/nostr_sdk_plugin.cc`,
`nostr_sdk_plugin_handle_method_call`: builds the success response for
"getPlatformVersion" and a not-implemented response for any other method,
then calls `fl_method_call_respond` once on it; the returned list is the
sequence of responses sent for the call. -/
def nostr_sdk_plugin_handle_method_call (unameVersion method : String) :
    List FlMethodResponse :=
  let response :=
    if method = "getPlatformVersion" then get_platform_version unameVersion
    else FlMethodResponse.notImplemented
  [response]

/-- C9: every method call receives exactly one response — a success
response "Linux " ++ uname version for "getPlatformVersion", a
not-implemented response for every other method name; no call is left
unanswered and none is answered twice. -/
theorem linux_plugin_single_response (unameVersion method : String) :
    (nostr_sdk_plugin_handle_method_call unameVersion method).length = 1 ∧
    (method = "getPlatformVersion" →
      nostr_sdk_plugin_handle_method_call unameVersion method =
        [FlMethodResponse.success ("Linux " ++ unameVersion)]) ∧
    (method ≠ "getPlatformVersion" →
      nostr_sdk_plugin_handle_method_call unameVersion method =
        [FlMethodResponse.notImplemented]) := by
  refine ⟨rfl, ?_, ?_⟩
  · intro h
    simp [nostr_sdk_plugin_handle_method_call, get_platform_version, h]
  · intro h
    simp [nostr_sdk_plugin_handle_method_call, h]

/-- Witness for C9: with uname version "6.1.0", the call
"getPlatformVersion" receives the single success response "Linux 6.1.0" and
the call "otherMethod" the single not-implemented response. -/
theorem linux_plugin_single_response_w :
    nostr_sdk_plugin_handle_method_call "6.1.0" "getPlatformVersion" =
        [FlMethodResponse.success "Linux 6.1.0"] ∧
      nostr_sdk_plugin_handle_method_call "6.1.0" "otherMethod" =
        [FlMethodResponse.notImplemented] :=
  ⟨(linux_plugin_single_response "6.1.0" "getPlatformVersion").2.1 rfl,
    (linux_plugin_single_response "6.1.0" "otherMethod").2.2 (by decide)⟩

end FlutterLinux

namespace NostrSdkRn

/-- Embedded from `bindings/nostr-sdk-rn/android/cpp-adapter.cpp`: the JNI
entry point body is the single expression `return nostrsdkrn::multiply(a,
b);`; the underlying `nostrsdkrn::multiply` lives in the header that is not
part of the provided sources, so it is an input of the model. -/
def Java_com_nostrsdkrn_NostrSdkRnModule_nativeMultiply
    (multiply : Float → Float → Float) (a b : Float) : Float :=
  multiply a b

/-- C10: the JNI bridge is a pure pass-through — for every pair of doubles
it returns exactly `nostrsdkrn::multiply(a, b)`, with no other observable
effect (the embedding is a total pure function of its inputs). -/
theorem jni_native_multiply_passthrough
    (multiply : Float → Float → Float) (a b : Float) :
    Java_com_nostrsdkrn_NostrSdkRnModule_nativeMultiply multiply a b =
      multiply a b :=
  rfl

end NostrSdkRn
